import Mathlib

/-!
Verification of the social-listener Collection & Enrichment Pipeline.

Shallow embedding of the collector service:
  * `src/collector/app/collectors/bluesky.py` (`BlueskyCollector`:
    `collect`, `_collect_keyword`, `_collect_mention`, `_save_post`),
  * `src/collector/app/main.py` (`scheduled_collect`, `collect_bluesky`),
  * `src/collector/app/nlp/processor.py` (`NLPProcessor.process_post`,
    `_store_entities`, `_get_or_create_entity`),
  * `src/collector/app/nlp/sentiment.py` (`analyze_sentiment`),
  * the ORM models in `src/collector/app/models/`.

The database session is modelled as an explicit record of table contents;
SQLAlchemy upserts become explicit find/insert/update on lists, executed
sequentially (one session).  External collaborators (the Bluesky client's
`search_posts`, the LeIA sentiment engine, the spaCy extractor) are
parameters of the embedded functions, so theorems quantify over their
behaviour.  Python `datetime.utcnow()` values are an abstract clock
(`Nat`), except for `post_created_at`, where the claims are about the
actual field-level behaviour of `datetime.fromisoformat` /
`datetime.replace(tzinfo=None)`, which is modelled on calendar fields.
-/

namespace SocialListener

/-! ## Timestamps (`bluesky.py` lines 241-249)

`_save_post` parses `record.created_at` with
`datetime.fromisoformat(record.created_at.replace("Z", "+00:00"))` and
then drops the timezone with `dt.replace(tzinfo=None)`.  We model a
Python timezone-aware datetime as its naive wall-clock fields plus a
UTC-offset in minutes. -/

/-- Naive (tz-free) datetime, second precision plus microseconds, as
Python `datetime` fields after `replace(tzinfo=None)`. -/
structure NaiveDT where
  year : Nat
  month : Nat
  day : Nat
  hour : Nat
  minute : Nat
  second : Nat
  microsecond : Nat
deriving DecidableEq, Repr

/-- Timezone-aware datetime as produced by `datetime.fromisoformat` on a
string carrying a `±HH:MM` offset: wall-clock fields plus the offset in
minutes (signed). -/
structure AwareDT where
  wall : NaiveDT
  offsetMinutes : Int
deriving DecidableEq, Repr

/-- Days in a month, Gregorian calendar (Python `datetime` validates
month/day against this). -/
def daysInMonth (year month : Nat) : Nat :=
  if month = 2 then
    if year % 4 = 0 ∧ (year % 100 ≠ 0 ∨ year % 400 = 0) then 29 else 28
  else if month = 4 ∨ month = 6 ∨ month = 9 ∨ month = 11 then 30
  else 31

def digitVal (c : Char) : Option Nat :=
  if c.isDigit then some (c.toNat - 48) else none

/-- Read exactly `n` decimal digits from the front of the character
list, returning their value and the rest. -/
def takeDigits : Nat → List Char → Option (Nat × List Char)
  | 0, cs => some (0, cs)
  | n + 1, [] => (fun _ => none) n
  | n + 1, c :: cs => do
    let d ← digitVal c
    let (v, rest) ← takeDigits n cs
    pure (d * 10 ^ n + v, rest)

/-- Expect one given character at the front. -/
def expectChar (c : Char) : List Char → Option (List Char)
  | [] => none
  | x :: xs => if x = c then some xs else none

/-- Parse the optional fractional-seconds part `.f{1..6}` into
microseconds (Python scales 1-6 digits to microseconds). -/
def parseFraction : List Char → Option (Nat × List Char)
  | '.' :: cs =>
    let digs := cs.takeWhile Char.isDigit
    let rest := cs.dropWhile Char.isDigit
    if 1 ≤ digs.length ∧ digs.length ≤ 6 then
      let v := digs.foldl (fun a c => a * 10 + (c.toNat - 48)) 0
      some (v * 10 ^ (6 - digs.length), rest)
    else none
  | cs => some (0, cs)

/-- Parse the optional trailing UTC offset `±HH:MM`; `none` in the first
component means the string had no offset (a naive datetime). -/
def parseOffset : List Char → Option (Option Int × List Char)
  | [] => some (none, [])
  | '+' :: cs => do
    let (h, cs) ← takeDigits 2 cs
    let cs ← expectChar ':' cs
    let (m, cs) ← takeDigits 2 cs
    if m < 60 then pure (some ((h : Int) * 60 + m), cs) else none
  | '-' :: cs => do
    let (h, cs) ← takeDigits 2 cs
    let cs ← expectChar ':' cs
    let (m, cs) ← takeDigits 2 cs
    if m < 60 then pure (some (-((h : Int) * 60 + m)), cs) else none
  | _ => none

/-- Python `str.replace("Z", "+00:00")` on the character list: every
occurrence of `Z` becomes `+00:00`. -/
def replaceZ : List Char → List Char
  | [] => []
  | 'Z' :: rest => '+' :: '0' :: '0' :: ':' :: '0' :: '0' :: replaceZ rest
  | c :: rest => c :: replaceZ rest

/-- Model of Python `datetime.fromisoformat` restricted to the full form
`YYYY-MM-DD[T ]HH:MM:SS[.ffffff][±HH:MM]` (the shape of Bluesky
`created_at` values after the code's `"Z" → "+00:00"` substitution).
Returns the wall-clock fields and the offset, or `none` when the string
does not parse (Python raises `ValueError`). -/
def fromisoformat (s : String) : Option (NaiveDT × Option Int) := do
  let cs := s.data
  let (y, cs) ← takeDigits 4 cs
  let cs ← expectChar '-' cs
  let (mo, cs) ← takeDigits 2 cs
  let cs ← expectChar '-' cs
  let (d, cs) ← takeDigits 2 cs
  let cs ← match cs with
    | 'T' :: rest => pure rest
    | ' ' :: rest => pure rest
    | _ => none
  let (h, cs) ← takeDigits 2 cs
  let cs ← expectChar ':' cs
  let (mi, cs) ← takeDigits 2 cs
  let cs ← expectChar ':' cs
  let (sec, cs) ← takeDigits 2 cs
  let (micro, cs) ← parseFraction cs
  let (off, cs) ← parseOffset cs
  if 1 ≤ mo ∧ mo ≤ 12 ∧ 1 ≤ d ∧ d ≤ daysInMonth y mo ∧
      h < 24 ∧ mi < 60 ∧ sec < 60 ∧ cs = [] then
    pure (⟨y, mo, d, h, mi, sec, micro⟩, off)
  else none

/-- From `bluesky.py` lines 241-249: parse `record.created_at` when present,
replacing a trailing `"Z"` with `"+00:00"`, then drop the timezone with
`dt.replace(tzinfo=None)` — which keeps the wall-clock fields and simply
discards the offset.  Any parse failure is swallowed (`except ... pass`)
leaving the value unset. -/
def parseCreatedAt (createdAt : Option String) : Option NaiveDT :=
  match createdAt with
  | none => none
  | some s =>
    match fromisoformat (String.mk (replaceZ s.data)) with
    | none => none
    | some (wall, _off) => some wall

/-- Civil-calendar day number from 1970-01-01 (Howard Hinnant's
`days_from_civil`), used only to state when two timestamps denote the
same instant. -/
def daysFromCivil (y m d : Int) : Int :=
  let y := y - (if m ≤ 2 then 1 else 0)
  let era := (if 0 ≤ y then y else y - 399) / 400
  let yoe := y - era * 400
  let mp := (m + 9) % 12
  let doy := (153 * mp + 2) / 5 + d - 1
  let doe := yoe * 365 + yoe / 4 - yoe / 100 + doy
  era * 146097 + doe - 719468

/-- The UTC instant (microseconds since the epoch) denoted by an aware
datetime: wall-clock seconds minus the UTC offset. -/
def instantOf (a : AwareDT) : Int :=
  ((daysFromCivil a.wall.year a.wall.month a.wall.day * 86400
      + a.wall.hour * 3600 + a.wall.minute * 60 + a.wall.second
      - a.offsetMinutes * 60) * 1000000) + a.wall.microsecond

/-- The instant denoted by a naive datetime read as UTC. -/
def instantOfNaive (n : NaiveDT) : Int :=
  instantOf ⟨n, 0⟩

/-! ## Sentiment (`sentiment.py` lines 28-58)

`analyze_sentiment` gets the LeIA `compound` score, classifies it with
the VADER thresholds, and returns `round(compound, 4)` as the score.
LeIA itself is an external collaborator, so `compound` is a parameter;
scores are modelled as exact rationals.  Python `round` rounds half to
even; away from exact ties every nearest rounding agrees with it. -/

structure SentimentResult where
  score : ℚ
  label : String
deriving DecidableEq, Repr

/-- Round-half-to-even to an integer (Python `round`'s tie rule). -/
def roundHalfEven (q : ℚ) : ℤ :=
  if q - ⌊q⌋ < 1 / 2 then ⌊q⌋
  else if 1 / 2 < q - ⌊q⌋ then ⌊q⌋ + 1
  else if ⌊q⌋ % 2 = 0 then ⌊q⌋ else ⌊q⌋ + 1

/-- Python `round(x, 4)`. -/
def round4 (q : ℚ) : ℚ := (roundHalfEven (q * 10000) : ℚ) / 10000

/-- Python whitespace as used by `str.strip()`. -/
def isPyWhitespace (c : Char) : Bool :=
  c = ' ' ∨ c = '\t' ∨ c = '\n' ∨ c = '\r' ∨ c = '\x0b' ∨ c = '\x0c'

/-- Python falsiness of `text` or `text.strip()`: the string is empty or
entirely whitespace. -/
def strippedEmpty (text : String) : Bool :=
  text.data.all isPyWhitespace

/-- From `sentiment.py` lines 28-58.  `compound` is the score produced by the
external LeIA analyzer for `text`.  Empty / whitespace-only text short
circuits to a neutral zero; otherwise the label is chosen from
`compound` by the VADER thresholds and the returned score is
`round(compound, 4)`. -/
def analyze_sentiment (text : String) (compound : ℚ) : SentimentResult :=
  if strippedEmpty text then ⟨0, "neutral"⟩
  else
    let label :=
      if 5 / 100 ≤ compound then "positive"
      else if compound ≤ -(5 / 100) then "negative"
      else "neutral"
    ⟨round4 compound, label⟩

/-! ## Named entities (`ner.py`)

The spaCy pipeline is an external collaborator; the Enrichment Stage
receives its output as a list of `EntityResult`s (shape from `ner.py`
lines 23-30).  Spans produced by `extract_entities` always carry
character offsets, so `start_pos`/`end_pos` are concrete here. -/

structure EntityResult where
  text : String
  normalizedText : String
  entityType : String
  startPos : Nat
  endPos : Nat
  confidence : ℚ
deriving DecidableEq, Repr

/-! ## ORM rows (`models/post.py`, `models/entity.py`)

Timestamps other than `post_created_at` are an abstract clock (`Nat`
passed as `now` where the code calls `datetime.utcnow()`). -/

/-- A row of the `posts` table (`models/post.py`), unique on
`(platform, platform_post_id)` (`uq_platform_post`). -/
structure PostRow where
  id : Nat
  listenerId : Nat
  platform : String
  platformPostId : String
  authorHandle : Option String
  authorDisplayName : Option String
  authorAvatarUrl : Option String
  content : Option String
  postUrl : Option String
  likesCount : Nat
  repliesCount : Nat
  repostsCount : Nat
  quotesCount : Nat
  sentimentScore : Option ℚ
  sentimentLabel : Option String
  postCreatedAt : Option NaiveDT
  collectedAt : Nat
  nlpProcessedAt : Option Nat
  nlpError : Option String
deriving DecidableEq, Repr

/-- A row of the `entities` table (`models/entity.py`), unique on
`(entity_type, entity_text)` (`uq_entity_type_text`). -/
structure EntityRow where
  id : Nat
  entityType : String
  entityText : String
  displayText : String
deriving DecidableEq, Repr

/-- A row of the `post_entities` junction table (`models/entity.py`),
unique on `(post_id, entity_id, start_pos)` (`uq_post_entity_pos`). -/
structure PostEntityRow where
  id : Nat
  postId : Nat
  entityId : Nat
  confidence : Option ℚ
  startPos : Option Nat
  endPos : Option Nat
deriving DecidableEq, Repr

/-- A row of the `listeners` table, as far as the collector touches it
(`models/listener.py` / `collector/app/models`).  `initialScrapeCompleted`
is the flag the spec calls `backfill_completed`. -/
structure Listener where
  id : Nat
  name : String
  platform : String
  ruleType : String
  ruleValue : String
  isActive : Bool
  initialScrapeCompleted : Bool
  lastPolledAt : Option Nat
  hasNewContent : Bool
deriving DecidableEq, Repr

/-- The database contents a collection run touches.  `nlpInvocations` is
ghost instrumentation: it counts the calls to
`nlp_processor.process_post` (the Enrichment Stage) and corresponds to
no stored column. -/
structure DB where
  posts : List PostRow
  entities : List EntityRow
  postEntities : List PostEntityRow
  nextPostId : Nat
  nextEntityId : Nat
  nextPostEntityId : Nat
  nlpInvocations : Nat
deriving DecidableEq, Repr

def emptyDB : DB := ⟨[], [], [], 1, 1, 1, 0⟩

/-! ## Fetched items (`bluesky.py` `_save_post` input shape)

A Bluesky `post_view`: optional fields model attributes that may be
`None` (or, for `quote_count`, absent entirely — `hasattr` false). -/

structure Item where
  uri : String
  authorHandle : String
  authorDisplayName : Option String
  authorAvatar : Option String
  text : Option String
  likeCount : Option Nat
  replyCount : Option Nat
  repostCount : Option Nat
  quoteCount : Option Nat
  createdAt : Option String
deriving DecidableEq, Repr

/-- One `search_posts` response: a page of items and a platform-issued
cursor when more pages exist. -/
structure Page where
  posts : List Item
  cursor : Option String
deriving DecidableEq, Repr

/-! ## External NLP collaborators

The LeIA analyzer and spaCy extractor are outside the repository; the
Enrichment Stage is verified against an arbitrary behaviour of both,
including raising.  `analyzeErr content = some e` means the sentiment
call raises `e` on that content; `extract` either returns spans or
raises; `storeErr = some e` means the first entity-store database
operation raises `e` (a failure of entity storage). -/

structure NLPOracle where
  compound : String → ℚ
  analyzeErr : String → Option String
  extract : String → Except String (List EntityResult)
  storeErr : Option String

/-! ## Entity Store (`processor.py` lines 77-149) -/

/-- The `uq_entity_type_text` key match. -/
def entityKeyIs (ty txt : String) (e : EntityRow) : Bool :=
  e.entityType == ty && e.entityText == txt

/-- Embeds `NLPProcessor._get_or_create_entity` (`processor.py` lines
114-149): `INSERT ... ON CONFLICT DO NOTHING` on `uq_entity_type_text`,
then `SELECT` the row back and return its id.  Sequentially: if a row
with the key exists the insert is discarded and the existing id is
returned; otherwise the new row is inserted and its id returned. -/
def getOrCreateEntity (ty txt disp : String) (db : DB) : Nat × DB :=
  match db.entities.find? (entityKeyIs ty txt) with
  | some e => (e.id, db)
  | none =>
    (db.nextEntityId,
      { db with
          entities := db.entities ++ [⟨db.nextEntityId, ty, txt, disp⟩]
          nextEntityId := db.nextEntityId + 1 })

/-- The `uq_post_entity_pos` key match.  The Enrichment Stage always
writes concrete `start_pos` values, so the SQL conflict key behaves as
plain equality here. -/
def occurrenceKeyIs (postId entityId startPos : Nat) (r : PostEntityRow) : Bool :=
  r.postId == postId && r.entityId == entityId && r.startPos == some startPos

/-- The junction insert in `NLPProcessor._store_entities`
(`processor.py` lines 100-112): `INSERT ... ON CONFLICT DO NOTHING` on
`uq_post_entity_pos`. -/
def recordOccurrence (postId entityId : Nat) (conf : ℚ) (sp ep : Nat)
    (db : DB) : DB :=
  if db.postEntities.any (occurrenceKeyIs postId entityId sp) then db
  else
    { db with
        postEntities :=
          db.postEntities ++ [⟨db.nextPostEntityId, postId, entityId, some conf, some sp, some ep⟩]
        nextPostEntityId := db.nextPostEntityId + 1 }

/-- Embeds `NLPProcessor._store_entities` (`processor.py` lines 77-112): for
each extracted span, get-or-create the entity, then record the
occurrence. -/
def storeEntities (postId : Nat) (ents : List EntityResult) (db : DB) : DB :=
  ents.foldl
    (fun db er =>
      let (eid, db1) := getOrCreateEntity er.entityType er.normalizedText er.text db
      recordOccurrence postId eid er.confidence er.startPos er.endPos db1)
    db

/-! ## Enrichment Stage (`processor.py` lines 29-75) -/

/-- Embeds `NLPProcessor.process_post`.  Returns the mutated post object, the
database after entity writes, and the success flag.  The function is
total: every failure of a collaborator is caught inside, mirroring the
`try/except` that spans sentiment analysis, extraction and entity
storage.  Python mutation order is preserved: the sentiment fields are
written before extraction runs, so they survive a later failure.  A
storage failure is modelled as the first entity-store operation raising
(`storeErr`), so in that branch no entity rows are written at all. -/
def process_post (now : Nat) (o : NLPOracle) (post : PostRow) (db : DB) :
    PostRow × DB × Bool :=
  if post.content.getD "" = "" then
    ({post with nlpProcessedAt := some now}, db, true)
  else
    let content := post.content.getD ""
    match o.analyzeErr content with
    | some e =>
      ({post with nlpError := some ("NLP processing failed: " ++ e),
                  nlpProcessedAt := some now}, db, false)
    | none =>
      let s := analyze_sentiment content (o.compound content)
      let post1 := {post with sentimentScore := some s.score, sentimentLabel := some s.label}
      match o.extract content with
      | .error e =>
        ({post1 with nlpError := some ("NLP processing failed: " ++ e),
                     nlpProcessedAt := some now}, db, false)
      | .ok ents =>
        match o.storeErr with
        | some e =>
          ({post1 with nlpError := some ("NLP processing failed: " ++ e),
                       nlpProcessedAt := some now}, db, false)
        | none =>
          let db1 := storeEntities post1.id ents db
          ({post1 with nlpProcessedAt := some now, nlpError := none}, db1, true)

/-! ## Content Store upsert and `_save_post` (`bluesky.py` lines 203-314) -/

/-- The `uq_platform_post` key match for a Bluesky post id. -/
def postKeyIs (uri : String) (p : PostRow) : Bool :=
  p.platform == "bluesky" && p.platformPostId == uri

/-- Python `post_view.uri.split("/")[-1]`. -/
def lastSegmentAux : List Char → List Char → List Char
  | [], acc => acc.reverse
  | '/' :: rest, _ => lastSegmentAux rest []
  | c :: rest, acc => lastSegmentAux rest (c :: acc)

def postRkey (uri : String) : String := String.mk (lastSegmentAux uri.data [])

/-- The row assembled by `_save_post`'s field extraction (`bluesky.py`
lines 212-249) and used as the `VALUES` of the upsert (lines 262-277):
author info, content, permalink, engagement counters defaulting to
zero, parsed creation time, and `collected_at = now`. -/
def newPostRow (now : Nat) (it : Item) (l : Listener) (db : DB) : PostRow :=
  { id := db.nextPostId, listenerId := l.id, platform := "bluesky",
    platformPostId := it.uri, authorHandle := some it.authorHandle,
    authorDisplayName := it.authorDisplayName,
    authorAvatarUrl := it.authorAvatar, content := it.text,
    postUrl := some ("https://bsky.app/profile/" ++ it.authorHandle
      ++ "/post/" ++ postRkey it.uri),
    likesCount := it.likeCount.getD 0, repliesCount := it.replyCount.getD 0,
    repostsCount := it.repostCount.getD 0, quotesCount := it.quoteCount.getD 0,
    sentimentScore := none, sentimentLabel := none,
    postCreatedAt := parseCreatedAt it.createdAt,
    collectedAt := now, nlpProcessedAt := none, nlpError := none }

/-- The no-conflict outcome of the upsert: the new row is inserted. -/
def insertedDB (now : Nat) (it : Item) (l : Listener) (db : DB) : DB :=
  { db with posts := db.posts ++ [newPostRow now it l db]
            nextPostId := db.nextPostId + 1 }

/-- The `ON CONFLICT (uq_platform_post) DO UPDATE` outcome (`bluesky.py`
lines 280-288): only the four engagement counters are written
(`set_ = {likes_count, replies_count, reposts_count, quotes_count}`). -/
def conflictDB (it : Item) (db : DB) : DB :=
  { db with
      posts := db.posts.map (fun p =>
        if postKeyIs it.uri p then
          { p with likesCount := it.likeCount.getD 0,
                   repliesCount := it.replyCount.getD 0,
                   repostsCount := it.repostCount.getD 0,
                   quotesCount := it.quoteCount.getD 0 }
        else p) }

/-- Embeds `BlueskyCollector._save_post` (`bluesky.py` lines 203-314).  Derives
the row fields from the fetched item, checks whether the identity
already exists (the `is_new_post` select), performs the PostgreSQL
upsert — insert, or on a `uq_platform_post` conflict update only the
four engagement counters — and, for new rows only, fetches the inserted
row and runs the Enrichment Stage on it, writing its mutations back.
Returns the database and `is_new_post`. -/
def save_post (now : Nat) (o : NLPOracle) (it : Item) (l : Listener) (db : DB) :
    DB × Bool :=
  let is_new_post := (db.posts.find? (postKeyIs it.uri)).isNone
  let db1 := if is_new_post then insertedDB now it l db else conflictDB it db
  if is_new_post then
    match db1.posts.find? (postKeyIs it.uri) with
    | none => (db1, true)
    | some post =>
      let pr := process_post now o post db1
      let db3 :=
        { pr.2.1 with
            posts := pr.2.1.posts.map (fun p => if p.id == post.id then pr.1 else p)
            nlpInvocations := pr.2.1.nlpInvocations + 1 }
      (db3, true)
  else (db1, false)

/-! ## Pagination loop (`bluesky.py` lines 87-201) -/

def INITIAL_SCRAPE_MAX_POSTS : Nat := 500
def REGULAR_SCRAPE_LIMIT : Nat := 100
def PAGE_SIZE : Nat := 100

/-- The per-page item loop: save each item, counting only those that
were newly inserted (a per-item failure is caught and logged, leaving
the count untouched; `save_post` is total here). -/
def savePage (now : Nat) (o : NLPOracle) (l : Listener) (items : List Item)
    (db : DB) (collected : Nat) : DB × Nat :=
  items.foldl
    (fun acc it =>
      let r := save_post now o it l acc.1
      (r.1, if r.2 then acc.2 + 1 else acc.2))
    (db, collected)

/-- The `while posts_collected < max_posts` pagination loop shared by
`_collect_keyword` and `_collect_mention` (`bluesky.py` lines 106-137
and 170-201).  `search q limit cursor` is the external
`client.app.bsky.feed.search_posts` call; `fuel` bounds how many
iterations the external world allows (the Python loop has no such bound
and can spin while the platform keeps returning cursors).  Returns the
collected count, the database, and the number of search calls made. -/
def collectLoop (search : String → Nat → Option String → Page) (now : Nat)
    (o : NLPOracle) (l : Listener) (searchTerm : String)
    (usePagination : Bool) (maxPosts : Nat) :
    Nat → Nat → Option String → DB → Nat → Nat × DB × Nat
  | 0, collected, _cursor, db, calls => (collected, db, calls)
  | fuel + 1, collected, cursor, db, calls =>
    if collected < maxPosts then
      if (search searchTerm (min PAGE_SIZE (maxPosts - collected)) cursor).posts.isEmpty then
        (collected, db, calls + 1)
      else
        match (search searchTerm (min PAGE_SIZE (maxPosts - collected)) cursor).cursor with
        | none =>
          ((savePage now o l
              (search searchTerm (min PAGE_SIZE (maxPosts - collected)) cursor).posts
              db collected).2,
            (savePage now o l
              (search searchTerm (min PAGE_SIZE (maxPosts - collected)) cursor).posts
              db collected).1, calls + 1)
        | some c =>
          if usePagination then
            collectLoop search now o l searchTerm usePagination maxPosts fuel
              (savePage now o l
                (search searchTerm (min PAGE_SIZE (maxPosts - collected)) cursor).posts
                db collected).2
              (some c)
              (savePage now o l
                (search searchTerm (min PAGE_SIZE (maxPosts - collected)) cursor).posts
                db collected).1
              (calls + 1)
          else
            ((savePage now o l
                (search searchTerm (min PAGE_SIZE (maxPosts - collected)) cursor).posts
                db collected).2,
              (savePage now o l
                (search searchTerm (min PAGE_SIZE (maxPosts - collected)) cursor).posts
                db collected).1, calls + 1)
    else (collected, db, calls)

/-- Result of one collector run: posts collected, database, mutated
listener, number of search calls. -/
structure RunResult where
  count : Nat
  db : DB
  listener : Listener
  calls : Nat
deriving DecidableEq, Repr

def startsWithHash (s : String) : Bool :=
  match s.data with
  | '#' :: _ => true
  | _ => false

def startsWithAt (s : String) : Bool :=
  match s.data with
  | '@' :: _ => true
  | _ => false

/-- The search term built by `_collect_keyword` (`bluesky.py` lines
90-92): hashtag rules get a `#` prefix when missing. -/
def keywordSearchTerm (l : Listener) : String :=
  if l.ruleType == "hashtag" && !startsWithHash l.ruleValue then
    "#" ++ l.ruleValue
  else l.ruleValue

/-- The query built by `_collect_mention` (`bluesky.py` lines 149-151):
`"@" + handle`, any leading `@` stripped from the rule value first. -/
def mentionQuery (l : Listener) : String :=
  "@" ++ (if startsWithAt l.ruleValue then String.mk l.ruleValue.data.tail
          else l.ruleValue)

/-- Embeds `BlueskyCollector._collect_keyword` (`bluesky.py` lines 87-143):
build the search term, pick backfill vs incremental limits, run the
pagination loop, then flip `initial_scrape_completed` when this was an
initial (backfill) run that collected at least one post. -/
def collect_keyword (search : String → Nat → Option String → Page) (now : Nat)
    (o : NLPOracle) (l : Listener) (fuel : Nat) (db : DB) : RunResult :=
  let is_initial := !l.initialScrapeCompleted
  let max_posts := if is_initial then INITIAL_SCRAPE_MAX_POSTS else REGULAR_SCRAPE_LIMIT
  let use_pagination := is_initial
  let r := collectLoop search now o l (keywordSearchTerm l) use_pagination max_posts fuel 0 none db 0
  let l1 :=
    if is_initial && decide (0 < r.1) then
      {l with initialScrapeCompleted := true}
    else l
  ⟨r.1, r.2.1, l1, r.2.2⟩

/-- Embeds `BlueskyCollector._collect_mention` (`bluesky.py` lines 145-201):
identical loop, searching for `"@" + handle` with any leading `@`
stripped from the rule value first. -/
def collect_mention (search : String → Nat → Option String → Page) (now : Nat)
    (o : NLPOracle) (l : Listener) (fuel : Nat) (db : DB) : RunResult :=
  let is_initial := !l.initialScrapeCompleted
  let max_posts := if is_initial then INITIAL_SCRAPE_MAX_POSTS else REGULAR_SCRAPE_LIMIT
  let use_pagination := is_initial
  let r := collectLoop search now o l (mentionQuery l) use_pagination max_posts fuel 0 none db 0
  let l1 :=
    if is_initial && decide (0 < r.1) then
      {l with initialScrapeCompleted := true}
    else l
  ⟨r.1, r.2.1, l1, r.2.2⟩

/-- Embeds `BlueskyCollector.collect` (`bluesky.py` lines 53-85): dispatch on
the rule type (hashtags are keywords); unknown rule types and an
unconfigured collector collect nothing.  The surrounding `try/except`
only logs and re-raises, so it adds no behaviour here. -/
def collect (configured : Bool) (search : String → Nat → Option String → Page)
    (now : Nat) (o : NLPOracle) (l : Listener) (fuel : Nat) (db : DB) : RunResult :=
  if !configured then ⟨0, db, l, 0⟩
  else if l.ruleType == "keyword" then collect_keyword search now o l fuel db
  else if l.ruleType == "mention" then collect_mention search now o l fuel db
  else if l.ruleType == "hashtag" then collect_keyword search now o l fuel db
  else ⟨0, db, l, 0⟩

/-! ## Collection Orchestrator (`main.py` lines 38-66 and 137-180)

The Platform Collector run for one listener is abstracted as a fallible
function `c : Listener → DB → Except String (DB × Nat × Listener)` —
the Bluesky client can raise on any call, and `BlueskyCollector.collect`
re-raises such errors after logging.  `.ok (db', count, l')` is the
session state, returned count and the (possibly flag-mutated) listener
object after a successful run; `.error e` is a raised exception, after
which the session still holds only uncommitted (rollback-able) state. -/

/-- Listener selection shared by both endpoints (`main.py` lines 44-49
and 149-155). -/
def selectListeners (ls : List Listener) : List Listener :=
  ls.filter (fun l => l.isActive && (l.platform == "bluesky" || l.platform == "all"))

/-- Outcome of `scheduled_collect`: the committed database, the
committed listener states in processing order, the logged collection
errors, and the total count. -/
structure OrchResult where
  committed : DB
  listeners : List Listener
  totalPosts : Nat
  errors : List String
deriving DecidableEq, Repr

/-- One iteration of the `scheduled_collect` loop (`main.py` lines
52-63): on success, update the listener bookkeeping and
`session.commit()` (the accumulator's `committed` becomes the session
state); on an exception, log it and `session.rollback()`, which discards
the listener's uncommitted writes — including its ORM field mutations —
and continue. -/
def scheduledStep (c : Listener → DB → Except String (DB × Nat × Listener))
    (now : Nat) (acc : OrchResult) (l : Listener) : OrchResult :=
  match c l acc.committed with
  | .ok (db', count, l') =>
    let l1 := { l' with lastPolledAt := some now,
                        hasNewContent := if 0 < count then true else l'.hasNewContent }
    ⟨db', acc.listeners ++ [l1], acc.totalPosts + count, acc.errors⟩
  | .error e => ⟨acc.committed, acc.listeners ++ [l], acc.totalPosts, acc.errors ++ [e]⟩

/-- Embeds `scheduled_collect` (`main.py` lines 38-66). -/
def scheduled_collect (c : Listener → DB → Except String (DB × Nat × Listener))
    (now : Nat) (listeners : List Listener) (db : DB) : OrchResult :=
  (selectListeners listeners).foldl (scheduledStep c now) ⟨db, [], 0, []⟩

/-- The listener loop of `collect_bluesky` (`main.py` lines 166-176):
processes listeners in one session with a single `commit` after the
loop; the first collector error raises `HTTPException(500)`, so the
request aborts, the remaining listeners are never processed, and the
session's uncommitted writes are discarded. -/
def manualLoop (c : Listener → DB → Except String (DB × Nat × Listener))
    (now : Nat) : List Listener → DB → List Listener → Nat →
    Except String (DB × List Listener × Nat)
  | [], db, acc, total => .ok (db, acc, total)
  | l :: rest, db, acc, total =>
    match c l db with
    | .error e => .error e
    | .ok (db', count, l') =>
      let l1 := { l' with lastPolledAt := some now,
                          hasNewContent := if 0 < count then true else l'.hasNewContent }
      manualLoop c now rest db' (acc ++ [l1]) (total + count)

/-- Embeds `collect_bluesky` (`main.py` lines 137-180): the manual trigger.
`.error` is an `HTTPException` (unconfigured: 400; no listeners: 404;
collector failure: 500). -/
def collect_bluesky (configured : Bool)
    (c : Listener → DB → Except String (DB × Nat × Listener)) (now : Nat)
    (listenerId : Option Nat) (listeners : List Listener) (db : DB) :
    Except String (DB × List Listener × Nat) :=
  if !configured then .error "Bluesky credentials not configured"
  else
    let sel := (selectListeners listeners).filter (fun l =>
      match listenerId with
      | none => true
      | some i => l.id == i)
    if sel.isEmpty then .error "No active Bluesky listeners found"
    else manualLoop c now sel db [] 0

/-! ## Derived observations and concrete fixtures -/

/-- Number of stored post rows carrying a given Bluesky identity. -/
def keyCount (uri : String) (db : DB) : Nat :=
  (db.posts.filter (postKeyIs uri)).length

/-- Whether a Bluesky identity already has a stored post row. -/
def seen (uri : String) (db : DB) : Bool :=
  (db.posts.find? (postKeyIs uri)).isSome

/-- All the post-row fields the conflict path of the upsert must leave
unchanged: everything except the four engagement counters. -/
def rowPreserved (p q : PostRow) : Prop :=
  q.id = p.id ∧ q.listenerId = p.listenerId ∧ q.platform = p.platform ∧
  q.platformPostId = p.platformPostId ∧ q.authorHandle = p.authorHandle ∧
  q.authorDisplayName = p.authorDisplayName ∧
  q.authorAvatarUrl = p.authorAvatarUrl ∧ q.content = p.content ∧
  q.postUrl = p.postUrl ∧ q.sentimentScore = p.sentimentScore ∧
  q.sentimentLabel = p.sentimentLabel ∧ q.postCreatedAt = p.postCreatedAt ∧
  q.collectedAt = p.collectedAt ∧ q.nlpProcessedAt = p.nlpProcessedAt ∧
  q.nlpError = p.nlpError

/-- The external inputs of one `_collect_keyword` run: platform
behaviour, clock, NLP collaborators, and the iteration bound. -/
structure RunInput where
  search : String → Nat → Option String → Page
  now : Nat
  oracle : NLPOracle
  fuel : Nat

/-- Number of `false → true` transitions of the
`initial_scrape_completed` flag over a sequence of keyword-collection
runs for one listener. -/
def flipCount : List RunInput → Listener → DB → Nat
  | [], _, _ => 0
  | r :: rest, l, db =>
    let res := collect_keyword r.search r.now r.oracle l r.fuel db
    (if !l.initialScrapeCompleted && res.listener.initialScrapeCompleted then 1 else 0) +
      flipCount rest res.listener res.db

/-! Concrete fixtures used to witness theorems with hypotheses. -/

/-- NLP collaborators that never fail and report nothing. -/
def oracle0 : NLPOracle := ⟨fun _ => 0, fun _ => none, fun _ => .ok [], none⟩

def itemA : Item :=
  ⟨"at://did:plc:a/app.bsky.feed.post/p1", "alice", none, none, none,
    none, none, none, none, none⟩

def itemB : Item :=
  ⟨"at://did:plc:b/app.bsky.feed.post/p2", "bob", none, none, none,
    none, none, none, none, none⟩

def listenerK : Listener :=
  ⟨3, "kw", "bluesky", "keyword", "acme", true, false, none, false⟩

/-- A platform that has exactly one matching post, honouring the
requested page limit. -/
def searchOne : String → Nat → Option String → Page :=
  fun _ n _ => ⟨[itemA].take n, none⟩

/-- A platform that returns the same already-seen item with a cursor on
every call. -/
def searchDup : String → Nat → Option String → Page :=
  fun _ _ _ => ⟨[itemA], some "cur"⟩

/-- The page served by `searchDup`. -/
def pageDup : Page := ⟨[itemA], some "cur"⟩

/-- A database that has already ingested `itemA`. -/
def dbSeenA : DB := (save_post 0 oracle0 itemA listenerK emptyDB).1

/-- A listener the example collector always fails on, and one it
succeeds on. -/
def listenerF : Listener :=
  ⟨1, "failing", "bluesky", "keyword", "x", true, false, none, false⟩

def listenerS : Listener :=
  ⟨2, "succeeding", "bluesky", "keyword", "y", true, false, none, false⟩

def rowX : PostRow :=
  ⟨1, 2, "bluesky", "at://did:plc:s/app.bsky.feed.post/s1", some "sam", none,
    none, none, none, 0, 0, 0, 0, none, none, none, 0, none, none⟩

/-- A post object with textual content, and NLP collaborators whose
sentiment call raises, for witnessing the failsafe contract. -/
def postHi : PostRow :=
  ⟨1, 3, "bluesky", "at://did:plc:h/app.bsky.feed.post/h1", some "hana", none,
    none, some "hi", none, 0, 0, 0, 0, none, none, none, 0, none, none⟩

def oracleFailA : NLPOracle :=
  ⟨fun _ => 0, fun _ => some "LeIA down", fun _ => .ok [], none⟩

/-- The four entity-store steps of extracting the same entity from two
posts, used to witness the dedup/idempotency theorem. -/
def entStep1 : Nat × DB := getOrCreateEntity "PERSON" "ana" "Ana" emptyDB

def entStep2 : DB := recordOccurrence 10 entStep1.1 1 0 3 entStep1.2

def entStep3 : Nat × DB := getOrCreateEntity "PERSON" "ana" "ANA" entStep2

def entStep4 : DB := recordOccurrence 11 entStep3.1 1 0 3 entStep3.2

/-- Example Platform Collector: raises for listener 1 (e.g. a transport
failure), inserts one post for any other listener. -/
def cEx : Listener → DB → Except String (DB × Nat × Listener) := fun l db =>
  if l.id == 1 then Except.error "boom"
  else Except.ok ({db with posts := db.posts ++ [rowX],
                           nextPostId := db.nextPostId + 1}, 1, l)

/-! ## Theorems -/

/-- C7: the creation-timestamp normalization is claimed to yield a
timezone-naive **UTC** instant, so inputs carrying any UTC offset and
denoting the same instant should normalize identically.  The code's
`dt.replace(tzinfo=None)` merely strips the offset and keeps the
wall-clock fields: `"2024-01-01T12:00:00+05:00"` and
`"2024-01-01T07:00:00Z"` denote the same instant, yet the first is
stored as naive `12:00:00` (its wall clock) instead of the UTC instant
`07:00:00`.  The absent/unparseable cases do behave as claimed. -/
theorem created_at_strips_offset_instead_of_converting :
    fromisoformat "2024-01-01T12:00:00+05:00" = some (⟨2024, 1, 1, 12, 0, 0, 0⟩, some 300) ∧
    instantOf ⟨⟨2024, 1, 1, 12, 0, 0, 0⟩, 300⟩ = instantOf ⟨⟨2024, 1, 1, 7, 0, 0, 0⟩, 0⟩ ∧
    parseCreatedAt (some "2024-01-01T12:00:00+05:00") = some ⟨2024, 1, 1, 12, 0, 0, 0⟩ ∧
    parseCreatedAt (some "2024-01-01T12:00:00+05:00") ≠
      parseCreatedAt (some "2024-01-01T07:00:00Z") ∧
    parseCreatedAt (some "2024-01-01T12:00:00+05:00") ≠ some ⟨2024, 1, 1, 7, 0, 0, 0⟩ ∧
    parseCreatedAt none = none ∧
    parseCreatedAt (some "not a timestamp") = none := by
  refine ⟨by decide, by decide, by decide, by decide, by decide, rfl, by decide⟩

/-- C9 counterexample: the claim derives the label from the *returned*
score by the ±0.05 thresholds.  The code labels from the raw LeIA
compound but returns `round(compound, 4)`: at compound `0.04996` the
returned score is `0.05 ≥ 0.05`, yet the label is `"neutral"`, not
`"positive"`. -/
theorem sentiment_label_vs_rounded_score :
    strippedEmpty "boundary text" = false ∧
    5 / 100 ≤ (analyze_sentiment "boundary text" (4996 / 100000)).score ∧
    (analyze_sentiment "boundary text" (4996 / 100000)).label = "neutral" ∧
    (analyze_sentiment "boundary text" (4996 / 100000)).label ≠ "positive" := by
  have hs : strippedEmpty "boundary text" = false := by decide
  have h2 : (analyze_sentiment "boundary text" (4996 / 100000)).label = "neutral" := by
    simp only [analyze_sentiment, hs, Bool.false_eq_true, if_false]
    norm_num
  refine ⟨hs, ?_, h2, by rw [h2]; decide⟩
  simp only [analyze_sentiment, hs, Bool.false_eq_true, if_false]
  norm_num [round4, roundHalfEven]

/-- `roundHalfEven` stays within integer bounds that contain its
argument. -/
theorem roundHalfEven_bounds {x : ℚ} {n : ℤ} (hlo : -(n : ℚ) ≤ x) (hhi : x ≤ n) :
    -n ≤ roundHalfEven x ∧ roundHalfEven x ≤ n := by
  have hfl : (-n : ℤ) ≤ ⌊x⌋ := Int.le_floor.mpr (by push_cast; exact hlo)
  have hfu : (⌊x⌋ : ℚ) ≤ x := Int.floor_le x
  have hfu' : ⌊x⌋ ≤ n := by
    have h := Int.floor_le_floor hhi
    rwa [Int.floor_intCast] at h
  have hsucc : 1 / 2 ≤ x - ⌊x⌋ → ⌊x⌋ + 1 ≤ n := by
    intro hr
    have hq : (⌊x⌋ : ℚ) ≤ (n : ℚ) - 1 / 2 := by linarith
    by_contra hcon
    push_neg at hcon
    have hni : n ≤ ⌊x⌋ := by omega
    have : (n : ℚ) ≤ (⌊x⌋ : ℚ) := by exact_mod_cast hni
    linarith
  unfold roundHalfEven
  split
  · exact ⟨hfl, hfu'⟩
  · split
    · rename_i h1 h2
      constructor
      · omega
      · exact hsucc (le_of_lt h2)
    · split
      · exact ⟨hfl, hfu'⟩
      · rename_i h1 h2 h3
        push_neg at h1 h2
        have hr : x - ⌊x⌋ = 1 / 2 := le_antisymm h2 h1
        constructor
        · omega
        · exact hsucc (le_of_eq hr.symm)

/-- C9 amended: for non-empty text the analyzer returns
`round(compound, 4)` as the score, which lies in `[-1, 1]` whenever the
raw compound does, and the label is derived by the symmetric ±0.05
thresholds from the **raw** compound score (so label and returned score
can disagree only at rounding boundaries). -/
theorem analyze_sentiment_spec (text : String) (compound : ℚ)
    (htext : strippedEmpty text = false)
    (hlo : -1 ≤ compound) (hhi : compound ≤ 1) :
    -1 ≤ (analyze_sentiment text compound).score ∧
    (analyze_sentiment text compound).score ≤ 1 ∧
    (analyze_sentiment text compound).score = round4 compound ∧
    (analyze_sentiment text compound).label =
      (if 5 / 100 ≤ compound then "positive"
       else if compound ≤ -(5 / 100) then "negative" else "neutral") := by
  have hb : -(10000 : ℤ) ≤ roundHalfEven (compound * 10000) ∧
      roundHalfEven (compound * 10000) ≤ 10000 := by
    refine roundHalfEven_bounds ?_ ?_
    · push_cast; linarith
    · push_cast; linarith
  have hq1 : (-10000 : ℚ) ≤ ((roundHalfEven (compound * 10000) : ℤ) : ℚ) := by
    exact_mod_cast hb.1
  have hq2 : ((roundHalfEven (compound * 10000) : ℤ) : ℚ) ≤ 10000 := by
    exact_mod_cast hb.2
  have hred : analyze_sentiment text compound =
      ⟨round4 compound,
        if 5 / 100 ≤ compound then "positive"
        else if compound ≤ -(5 / 100) then "negative" else "neutral"⟩ := by
    simp only [analyze_sentiment, htext, Bool.false_eq_true, if_false]
  rw [hred]
  refine ⟨?_, ?_, rfl, rfl⟩
  · show -1 ≤ round4 compound
    rw [round4, le_div_iff₀ (by norm_num : (0 : ℚ) < 10000)]
    linarith
  · show round4 compound ≤ 1
    rw [round4, div_le_iff₀ (by norm_num : (0 : ℚ) < 10000)]
    linarith

/-- Witness for `analyze_sentiment_spec` at concrete inputs. -/
theorem analyze_sentiment_spec_witness :
    strippedEmpty "muito bom" = false ∧
    (-1 ≤ (6 : ℚ) / 10 ∧ (6 : ℚ) / 10 ≤ 1) ∧
    (-1 ≤ (analyze_sentiment "muito bom" (6 / 10)).score ∧
      (analyze_sentiment "muito bom" (6 / 10)).score ≤ 1 ∧
      (analyze_sentiment "muito bom" (6 / 10)).score = round4 (6 / 10) ∧
      (analyze_sentiment "muito bom" (6 / 10)).label =
        (if (5 : ℚ) / 100 ≤ 6 / 10 then "positive"
         else if (6 : ℚ) / 10 ≤ -(5 / 100) then "negative" else "neutral")) :=
  ⟨by decide, ⟨by norm_num, by norm_num⟩,
    analyze_sentiment_spec "muito bom" (6 / 10) (by decide) (by norm_num) (by norm_num)⟩

/-! ### Enrichment Stage: failsafe contract (C4) -/

theorem getOrCreateEntity_posts (ty txt disp : String) (db : DB) :
    ((getOrCreateEntity ty txt disp db).2).posts = db.posts ∧
    ((getOrCreateEntity ty txt disp db).2).nlpInvocations = db.nlpInvocations := by
  unfold getOrCreateEntity
  split <;> exact ⟨rfl, rfl⟩

theorem recordOccurrence_posts (pid eid : Nat) (c : ℚ) (sp ep : Nat) (db : DB) :
    (recordOccurrence pid eid c sp ep db).posts = db.posts ∧
    (recordOccurrence pid eid c sp ep db).nlpInvocations = db.nlpInvocations := by
  unfold recordOccurrence
  split <;> exact ⟨rfl, rfl⟩

theorem storeEntities_posts (pid : Nat) (es : List EntityResult) :
    ∀ db : DB, (storeEntities pid es db).posts = db.posts ∧
      (storeEntities pid es db).nlpInvocations = db.nlpInvocations := by
  induction es with
  | nil => intro db; exact ⟨rfl, rfl⟩
  | cons e es ih =>
    intro db
    rw [storeEntities, List.foldl_cons]
    have h1 := getOrCreateEntity_posts e.entityType e.normalizedText e.text db
    have h2 := recordOccurrence_posts pid
      (getOrCreateEntity e.entityType e.normalizedText e.text db).1
      e.confidence e.startPos e.endPos
      (getOrCreateEntity e.entityType e.normalizedText e.text db).2
    have h3 := ih (recordOccurrence pid
      (getOrCreateEntity e.entityType e.normalizedText e.text db).1
      e.confidence e.startPos e.endPos
      (getOrCreateEntity e.entityType e.normalizedText e.text db).2)
    rw [storeEntities] at h3
    exact ⟨h3.1.trans (h2.1.trans h1.1), h3.2.trans (h2.2.trans h1.2)⟩

/-- C4: `process_post` is failsafe.  It is a total function (no failure
of the analyzer, the extractor or entity storage escapes it), the posts
table is never touched by it (in particular the post's insertion is not
rolled back), a post without content is marked processed and reported
successful with sentiment fields and entity tables untouched, and every
collaborator failure is caught, recorded in `nlp_error` together with
`nlp_processed_at = now`, and reported as failure. -/
theorem process_post_failsafe (now : Nat) (o : NLPOracle) (post : PostRow) (db : DB) :
    ((process_post now o post db).2.1.posts = db.posts) ∧
    (post.content.getD "" = "" →
      process_post now o post db = ({post with nlpProcessedAt := some now}, db, true)) ∧
    (∀ content e, post.content = some content → content ≠ "" →
      o.analyzeErr content = some e →
      process_post now o post db =
        ({post with nlpError := some ("NLP processing failed: " ++ e),
                    nlpProcessedAt := some now}, db, false)) ∧
    (∀ content e, post.content = some content → content ≠ "" →
      o.analyzeErr content = none → o.extract content = .error e →
      (process_post now o post db).1.nlpError = some ("NLP processing failed: " ++ e) ∧
      (process_post now o post db).1.nlpProcessedAt = some now ∧
      (process_post now o post db).2.1 = db ∧
      (process_post now o post db).2.2 = false) ∧
    (∀ content ents e, post.content = some content → content ≠ "" →
      o.analyzeErr content = none → o.extract content = .ok ents →
      o.storeErr = some e →
      (process_post now o post db).1.nlpError = some ("NLP processing failed: " ++ e) ∧
      (process_post now o post db).1.nlpProcessedAt = some now ∧
      (process_post now o post db).2.1 = db ∧
      (process_post now o post db).2.2 = false) := by
  refine ⟨?_, ?_, ?_, ?_, ?_⟩
  · unfold process_post
    split
    · rfl
    · cases hA : o.analyzeErr (post.content.getD "") with
      | some e => simp [hA]
      | none =>
        cases hE : o.extract (post.content.getD "") with
        | error e => simp [hA, hE]
        | ok ents =>
          cases hS : o.storeErr with
          | some e => simp [hA, hE, hS]
          | none => simp [hA, hE, hS, storeEntities_posts]
  · intro h
    unfold process_post
    rw [if_pos h]
  · intro content e hc hne hA
    simp [process_post, hc, hA, hne]
  · intro content e hc hne hA hE
    simp [process_post, hc, hA, hE, hne]
  · intro content ents e hc hne hA hE hS
    simp [process_post, hc, hA, hE, hS, hne]

/-! ### Content Store upsert (C2, C3) -/

theorem filter_length_map_eq {α : Type} (f : α → α) (p : α → Bool)
    (h : ∀ x, p (f x) = p x) :
    ∀ l : List α, ((l.map f).filter p).length = (l.filter p).length := by
  intro l
  induction l with
  | nil => rfl
  | cons a l ih =>
    simp only [List.map_cons, List.filter_cons, h a]
    cases hpa : p a <;> simp [hpa, ih]

theorem find?_isSome_map_eq {α : Type} (f : α → α) (p : α → Bool)
    (h : ∀ x, p (f x) = p x) :
    ∀ l : List α, ((l.map f).find? p).isSome = (l.find? p).isSome := by
  intro l
  have hpf : p ∘ f = p := funext h
  simp [List.find?_map, hpf]

theorem process_post_db (now : Nat) (o : NLPOracle) (post : PostRow) (db : DB) :
    (process_post now o post db).2.1.posts = db.posts ∧
    (process_post now o post db).2.1.nlpInvocations = db.nlpInvocations := by
  unfold process_post
  split
  · exact ⟨rfl, rfl⟩
  · cases hA : o.analyzeErr (post.content.getD "") with
    | some e => simp [hA]
    | none =>
      cases hE : o.extract (post.content.getD "") with
      | error e => simp [hA, hE]
      | ok ents =>
        cases hS : o.storeErr with
        | some e => simp [hA, hE, hS]
        | none => simp [hA, hE, hS, storeEntities_posts]

theorem process_post_key (now : Nat) (o : NLPOracle) (post : PostRow) (db : DB) :
    (process_post now o post db).1.id = post.id ∧
    (process_post now o post db).1.platform = post.platform ∧
    (process_post now o post db).1.platformPostId = post.platformPostId := by
  unfold process_post
  split
  · exact ⟨rfl, rfl, rfl⟩
  · cases hA : o.analyzeErr (post.content.getD "") with
    | some e => simp [hA]
    | none =>
      cases hE : o.extract (post.content.getD "") with
      | error e => simp [hA, hE]
      | ok ents =>
        cases hS : o.storeErr with
        | some e => simp [hA, hE, hS]
        | none => simp [hA, hE, hS]

/-- The conflict-branch row update of the upsert. -/
theorem save_post_existing (now : Nat) (o : NLPOracle) (it : Item) (l : Listener)
    (db : DB) (p0 : PostRow)
    (hfind : db.posts.find? (postKeyIs it.uri) = some p0) :
    (save_post now o it l db).2 = false ∧
    (save_post now o it l db).1.posts = db.posts.map (fun p =>
      if postKeyIs it.uri p then
        { p with likesCount := it.likeCount.getD 0,
                 repliesCount := it.replyCount.getD 0,
                 repostsCount := it.repostCount.getD 0,
                 quotesCount := it.quoteCount.getD 0 }
      else p) ∧
    (save_post now o it l db).1.nlpInvocations = db.nlpInvocations := by
  unfold save_post
  simp [hfind, conflictDB]

/-- After the conflict-free insert, the `select ... scalar_one()` that
feeds the Enrichment Stage finds exactly the inserted row. -/
theorem insertedDB_find (now : Nat) (it : Item) (l : Listener) (db : DB)
    (hfind : db.posts.find? (postKeyIs it.uri) = none) :
    (insertedDB now it l db).posts.find? (postKeyIs it.uri)
      = some (newPostRow now it l db) := by
  unfold insertedDB
  rw [List.find?_append]
  simp [hfind, newPostRow, postKeyIs]

theorem postKeyIs_newPostRow (now : Nat) (it : Item) (l : Listener) (db : DB) :
    postKeyIs it.uri (newPostRow now it l db) = true := by
  simp [postKeyIs, newPostRow]

/-- The insert branch of the upsert runs enrichment once and adds one
row. -/
theorem save_post_new (now : Nat) (o : NLPOracle) (it : Item) (l : Listener)
    (db : DB) (hfind : db.posts.find? (postKeyIs it.uri) = none) :
    (save_post now o it l db).2 = true ∧
    (save_post now o it l db).1.posts.length = db.posts.length + 1 ∧
    (save_post now o it l db).1.nlpInvocations = db.nlpInvocations + 1 := by
  unfold save_post
  simp [hfind, insertedDB, postKeyIs_newPostRow, process_post_db, List.find?_append]

/-- The conflict path changes no row's identity, so which identities
exist is unchanged. -/
theorem save_post_existing_seen (now : Nat) (o : NLPOracle) (it : Item)
    (l : Listener) (db : DB) (p0 : PostRow)
    (hfind : db.posts.find? (postKeyIs it.uri) = some p0) :
    ∀ u, seen u (save_post now o it l db).1 = seen u db := by
  intro u
  have h := save_post_existing now o it l db p0 hfind
  unfold seen
  rw [h.2.1]
  exact find?_isSome_map_eq _ _
    (fun p => by cases hx : postKeyIs it.uri p <;> simp [hx, postKeyIs]) db.posts

theorem save_post_existing_keyCount (now : Nat) (o : NLPOracle) (it : Item)
    (l : Listener) (db : DB) (p0 : PostRow)
    (hfind : db.posts.find? (postKeyIs it.uri) = some p0) :
    ∀ u, keyCount u (save_post now o it l db).1 = keyCount u db := by
  intro u
  have h := save_post_existing now o it l db p0 hfind
  unfold keyCount
  rw [h.2.1]
  exact filter_length_map_eq _ _
    (fun p => by cases hx : postKeyIs it.uri p <;> simp [hx, postKeyIs]) db.posts

theorem insertedDB_posts (now : Nat) (it : Item) (l : Listener) (db : DB) :
    (insertedDB now it l db).posts = db.posts ++ [newPostRow now it l db] := rfl

/-- The insert path appends exactly the enriched new row (given fresh
row ids, no stored row is touched by the enrichment write-back). -/
theorem save_post_new_posts (now : Nat) (o : NLPOracle) (it : Item) (l : Listener)
    (db : DB) (hfind : db.posts.find? (postKeyIs it.uri) = none)
    (hfresh : ∀ p ∈ db.posts, p.id ≠ db.nextPostId) :
    (save_post now o it l db).1.posts
      = db.posts ++
        [(process_post now o (newPostRow now it l db) (insertedDB now it l db)).1] := by
  have hmap : ∀ p ∈ db.posts,
      (if p.id == (newPostRow now it l db).id
        then (process_post now o (newPostRow now it l db) (insertedDB now it l db)).1
        else p) = p := by
    intro p hp
    have hne : (p.id == (newPostRow now it l db).id) = false := by
      simp only [newPostRow]
      exact beq_eq_false_iff_ne.mpr (hfresh p hp)
    rw [hne]
    simp
  unfold save_post
  simp only [hfind, Option.isNone_none, eq_self_iff_true, if_true,
    insertedDB_find now it l db hfind]
  rw [(process_post_db now o (newPostRow now it l db) (insertedDB now it l db)).1]
  rw [insertedDB_posts, List.map_append]
  have h1 : db.posts.map (fun p =>
      if p.id == (newPostRow now it l db).id
        then (process_post now o (newPostRow now it l db) (insertedDB now it l db)).1
        else p) = db.posts := by
    rw [List.map_congr_left hmap]
    exact List.map_id' db.posts
  rw [h1]
  simp

theorem save_post_new_keyCount (now : Nat) (o : NLPOracle) (it : Item)
    (l : Listener) (db : DB) (hfind : db.posts.find? (postKeyIs it.uri) = none)
    (hfresh : ∀ p ∈ db.posts, p.id ≠ db.nextPostId) :
    keyCount it.uri (save_post now o it l db).1 = keyCount it.uri db + 1 := by
  unfold keyCount
  rw [save_post_new_posts now o it l db hfind hfresh, List.filter_append]
  have hk := process_post_key now o (newPostRow now it l db) (insertedDB now it l db)
  have hq : postKeyIs it.uri
      (process_post now o (newPostRow now it l db) (insertedDB now it l db)).1 = true := by
    unfold postKeyIs
    rw [hk.2.1, hk.2.2]
    simp [newPostRow]
  simp [hq]

theorem seen_eq_keyCount_pos (u : String) (db : DB) :
    seen u db = true ↔ 0 < keyCount u db := by
  unfold seen keyCount
  rw [List.find?_isSome]
  rw [List.length_pos_iff_exists_mem]
  constructor
  · rintro ⟨x, hx, hp⟩
    exact ⟨x, List.mem_filter.mpr ⟨hx, hp⟩⟩
  · rintro ⟨x, hx⟩
    have := List.mem_filter.mp hx
    exact ⟨x, this.1, this.2⟩

/-- C2 (amended): on a `(platform, native id)` conflict the upsert
updates only the four engagement counters — `content`, author fields,
permalink, `post_created_at` **and the ingestion timestamp
`collected_at`** of the existing row are all left unchanged (the
`ON CONFLICT` clause does not set `collected_at`) — and ingesting the
same item twice yields exactly one post row for that identity. -/
theorem upsert_conflict_semantics (now : Nat) (o : NLPOracle) (it : Item)
    (l : Listener) (db : DB) :
    ((db.posts.find? (postKeyIs it.uri)).isSome →
      (save_post now o it l db).2 = false ∧
      (save_post now o it l db).1.posts.length = db.posts.length ∧
      List.Forall₂ rowPreserved db.posts (save_post now o it l db).1.posts) ∧
    (∀ now2 o2, keyCount it.uri db = 0 → (∀ p ∈ db.posts, p.id ≠ db.nextPostId) →
      keyCount it.uri
        ((save_post now2 o2 it l (save_post now o it l db).1).1) = 1) := by
  constructor
  · intro hsome
    obtain ⟨p0, hfind⟩ := Option.isSome_iff_exists.mp hsome
    have h := save_post_existing now o it l db p0 hfind
    refine ⟨h.1, ?_, ?_⟩
    · rw [h.2.1, List.length_map]
    · rw [h.2.1]
      rw [List.forall₂_map_right_iff]
      rw [List.forall₂_same]
      intro p _
      cases hx : postKeyIs it.uri p <;> simp [hx, rowPreserved]
  · intro now2 o2 hzero hfresh
    have hfind : db.posts.find? (postKeyIs it.uri) = none := by
      have : ¬ seen it.uri db = true := by
        rw [seen_eq_keyCount_pos, hzero]; omega
      unfold seen at this
      exact Option.not_isSome_iff_eq_none.mp (by simpa using this)
    have h1 : keyCount it.uri (save_post now o it l db).1 = 1 := by
      rw [save_post_new_keyCount now o it l db hfind hfresh, hzero]
    have hseen : seen it.uri (save_post now o it l db).1 = true := by
      rw [seen_eq_keyCount_pos, h1]; omega
    obtain ⟨p0, hfind2⟩ := Option.isSome_iff_exists.mp
      (show ((save_post now o it l db).1.posts.find? (postKeyIs it.uri)).isSome = true
        from hseen)
    rw [save_post_existing_keyCount now2 o2 it l _ p0 hfind2, h1]

/-- Witness for `upsert_conflict_semantics` at concrete inputs. -/
theorem upsert_conflict_semantics_witness :
    (dbSeenA.posts.find? (postKeyIs itemA.uri)).isSome = true ∧
    keyCount itemA.uri emptyDB = 0 ∧
    ((save_post 5 oracle0 itemA listenerK dbSeenA).2 = false ∧
      (save_post 5 oracle0 itemA listenerK dbSeenA).1.posts.length
        = dbSeenA.posts.length ∧
      List.Forall₂ rowPreserved dbSeenA.posts
        (save_post 5 oracle0 itemA listenerK dbSeenA).1.posts) ∧
    keyCount itemA.uri
      ((save_post 7 oracle0 itemA listenerK
        (save_post 6 oracle0 itemA listenerK emptyDB).1).1) = 1 :=
  ⟨by decide, by decide,
    (upsert_conflict_semantics 5 oracle0 itemA listenerK dbSeenA).1 (by decide),
    (upsert_conflict_semantics 6 oracle0 itemA listenerK emptyDB).2 7 oracle0
      (by decide) (by simp [emptyDB])⟩

/-- C2 counterexample: the claim says a conflicting upsert updates the
ingestion timestamp `collected_at` along with the counters.  Ingesting
the same item at time 100 and again at time 200 leaves the row's
`collected_at` at 100 (only `likes_count` moved to the new value 9). -/
theorem upsert_does_not_update_collected_at :
    ((save_post 200 oracle0 {itemA with likeCount := some 9} listenerK
        (save_post 100 oracle0 {itemA with likeCount := some 1} listenerK
          emptyDB).1).1.posts.map
      (fun p => (p.collectedAt, p.likesCount))) = [(100, 9)] ∧
    (100 : Nat) ≠ 200 := by
  constructor
  · decide
  · decide

/-- C3: the Enrichment Stage is invoked exactly when the upsert reports
the row as newly created — an already-seen identity is never enriched
again, a brand-new identity is enriched exactly once
(`nlpInvocations` counts the `nlp_processor.process_post` calls). -/
theorem enrichment_gated_by_upsert (now : Nat) (o : NLPOracle) (it : Item)
    (l : Listener) (db : DB) :
    ((db.posts.find? (postKeyIs it.uri)).isSome →
      (save_post now o it l db).2 = false ∧
      (save_post now o it l db).1.nlpInvocations = db.nlpInvocations) ∧
    (db.posts.find? (postKeyIs it.uri) = none →
      (save_post now o it l db).2 = true ∧
      (save_post now o it l db).1.nlpInvocations = db.nlpInvocations + 1) := by
  constructor
  · intro hsome
    obtain ⟨p0, hfind⟩ := Option.isSome_iff_exists.mp hsome
    have h := save_post_existing now o it l db p0 hfind
    exact ⟨h.1, h.2.2⟩
  · intro hfind
    have h := save_post_new now o it l db hfind
    exact ⟨h.1, h.2.2⟩

/-- Witness for `enrichment_gated_by_upsert` at concrete inputs. -/
theorem enrichment_gated_by_upsert_witness :
    (dbSeenA.posts.find? (postKeyIs itemA.uri)).isSome = true ∧
    emptyDB.posts.find? (postKeyIs itemA.uri) = none ∧
    ((save_post 5 oracle0 itemA listenerK dbSeenA).2 = false ∧
      (save_post 5 oracle0 itemA listenerK dbSeenA).1.nlpInvocations
        = dbSeenA.nlpInvocations) ∧
    ((save_post 5 oracle0 itemA listenerK emptyDB).2 = true ∧
      (save_post 5 oracle0 itemA listenerK emptyDB).1.nlpInvocations
        = emptyDB.nlpInvocations + 1) :=
  ⟨by decide, by decide,
    (enrichment_gated_by_upsert 5 oracle0 itemA listenerK dbSeenA).1 (by decide),
    (enrichment_gated_by_upsert 5 oracle0 itemA listenerK emptyDB).2 (by decide)⟩

/-! ### Pagination loop (C5, C6, C10) -/

theorem save_post_length (now : Nat) (o : NLPOracle) (it : Item) (l : Listener)
    (db : DB) :
    (save_post now o it l db).1.posts.length
      = db.posts.length + (if (save_post now o it l db).2 then 1 else 0) := by
  cases hfind : db.posts.find? (postKeyIs it.uri) with
  | none =>
    have h := save_post_new now o it l db hfind
    simp [h.1, h.2.1]
  | some p0 =>
    have h := save_post_existing now o it l db p0 hfind
    simp [h.1, h.2.1]

theorem savePage_cons (now : Nat) (o : NLPOracle) (l : Listener) (it : Item)
    (items : List Item) (db : DB) (c : Nat) :
    savePage now o l (it :: items) db c
      = savePage now o l items (save_post now o it l db).1
          (if (save_post now o it l db).2 then c + 1 else c) := rfl

theorem savePage_spec (now : Nat) (o : NLPOracle) (l : Listener) :
    ∀ (items : List Item) (db : DB) (c : Nat),
      (savePage now o l items db c).2 + db.posts.length
        = (savePage now o l items db c).1.posts.length + c ∧
      c ≤ (savePage now o l items db c).2 ∧
      (savePage now o l items db c).2 ≤ c + items.length := by
  intro items
  induction items with
  | nil => intro db c; simp [savePage]; omega
  | cons it items ih =>
    intro db c
    rw [savePage_cons]
    have hl := save_post_length now o it l db
    have ih' := ih (save_post now o it l db).1
      (if (save_post now o it l db).2 then c + 1 else c)
    cases hb : (save_post now o it l db).2 <;>
      simp [hb] at hl ih' ⊢ <;> omega

/-- Already-seen items leave the new-post count unchanged and preserve
which identities exist. -/
theorem savePage_dup (now : Nat) (o : NLPOracle) (l : Listener) :
    ∀ (items : List Item) (db : DB) (c : Nat),
      (∀ it ∈ items, seen it.uri db = true) →
      (savePage now o l items db c).2 = c ∧
      (∀ u, seen u (savePage now o l items db c).1 = seen u db) := by
  intro items
  induction items with
  | nil => intro db c _; exact ⟨rfl, fun u => rfl⟩
  | cons it items ih =>
    intro db c hseen
    have hs : seen it.uri db = true := hseen it (List.mem_cons_self it items)
    obtain ⟨p0, hfind⟩ := Option.isSome_iff_exists.mp
      (show (db.posts.find? (postKeyIs it.uri)).isSome = true from hs)
    have hex := save_post_existing now o it l db p0 hfind
    have hpres := save_post_existing_seen now o it l db p0 hfind
    rw [savePage_cons, hex.1]
    have ih' := ih (save_post now o it l db).1 c
      (fun it2 h2 => by rw [hpres it2.uri]; exact hseen it2 (List.mem_cons_of_mem it h2))
    simp only [Bool.false_eq_true, if_false]
    exact ⟨ih'.1, fun u => (ih'.2 u).trans (hpres u)⟩

theorem collectLoop_zero (search : String → Nat → Option String → Page)
    (now : Nat) (o : NLPOracle) (l : Listener) (term : String) (up : Bool)
    (mp c : Nat) (cur : Option String) (db : DB) (calls : Nat) :
    collectLoop search now o l term up mp 0 c cur db calls = (c, db, calls) := rfl

/-- The budget invariant of the pagination loop: page limits are floored
at the remaining budget, so the collected count never exceeds it (as
long as the platform honours the requested limit). -/
theorem collectLoop_budget (search : String → Nat → Option String → Page)
    (now : Nat) (o : NLPOracle) (l : Listener) (term : String) (up : Bool)
    (mp : Nat) (hsearch : ∀ q n cur, (search q n cur).posts.length ≤ n) :
    ∀ (fuel c : Nat) (cur : Option String) (db : DB) (calls : Nat),
      c ≤ mp →
      (collectLoop search now o l term up mp fuel c cur db calls).1 ≤ mp := by
  intro fuel
  induction fuel with
  | zero => intro c cur db calls hc; simpa [collectLoop_zero] using hc
  | succ fuel ih =>
    intro c cur db calls hc
    rw [collectLoop]
    by_cases hlt : c < mp
    · rw [if_pos hlt]
      have hsp := savePage_spec now o l (search term (min PAGE_SIZE (mp - c)) cur).posts db c
      have hpl := hsearch term (min PAGE_SIZE (mp - c)) cur
      have hbound : (savePage now o l
          (search term (min PAGE_SIZE (mp - c)) cur).posts db c).2 ≤ mp := by
        have := min_le_right PAGE_SIZE (mp - c)
        omega
      split
      · exact le_of_lt hlt
      · split
        · exact hbound
        · split
          · exact ih _ _ _ _ hbound
          · exact hbound
    · rw [if_neg hlt]
      exact hc

/-- The count returned by the loop equals the number of rows the run
added to the posts table. -/
theorem collectLoop_inserts (search : String → Nat → Option String → Page)
    (now : Nat) (o : NLPOracle) (l : Listener) (term : String) (up : Bool)
    (mp : Nat) :
    ∀ (fuel c : Nat) (cur : Option String) (db : DB) (calls : Nat),
      (collectLoop search now o l term up mp fuel c cur db calls).1 + db.posts.length
        = (collectLoop search now o l term up mp fuel c cur db calls).2.1.posts.length
          + c := by
  intro fuel
  induction fuel with
  | zero => intro c cur db calls; simp [collectLoop_zero]; omega
  | succ fuel ih =>
    intro c cur db calls
    rw [collectLoop]
    by_cases hlt : c < mp
    · rw [if_pos hlt]
      have hsp := (savePage_spec now o l (search term (min PAGE_SIZE (mp - c)) cur).posts db c).1
      split
      · dsimp only; omega
      · cases hcur : (search term (min PAGE_SIZE (mp - c)) cur).cursor with
        | none => dsimp only; exact hsp
        | some cnext =>
          dsimp only
          split
          · have := ih (savePage now o l
                (search term (min PAGE_SIZE (mp - c)) cur).posts db c).2 (some cnext)
              (savePage now o l (search term (min PAGE_SIZE (mp - c)) cur).posts db c).1
              (calls + 1)
            omega
          · exact hsp
    · rw [if_neg hlt]
      dsimp only
      omega

/-- With a platform that endlessly re-serves one already-seen page with
a cursor, a backfill loop keeps requesting pages (one search call per
permitted iteration) and collects nothing. -/
theorem collectLoop_dup (p : Page) (cnext : String) (hpc : p.cursor = some cnext)
    (hne : p.posts.isEmpty = false) (now : Nat) (o : NLPOracle) (l : Listener)
    (term : String) (mp : Nat) :
    ∀ (fuel c : Nat) (cur : Option String) (db : DB) (calls : Nat),
      c < mp →
      (∀ it ∈ p.posts, seen it.uri db = true) →
      (collectLoop (fun _ _ _ => p) now o l term true mp fuel c cur db calls).1 = c ∧
      (collectLoop (fun _ _ _ => p) now o l term true mp fuel c cur db calls).2.2
        = calls + fuel := by
  intro fuel
  induction fuel with
  | zero => intro c cur db calls _ _; exact ⟨rfl, rfl⟩
  | succ fuel ih =>
    intro c cur db calls hlt hseen
    rw [collectLoop]
    rw [if_pos hlt]
    have hdup := savePage_dup now o l p.posts db c hseen
    simp only [hne, Bool.false_eq_true, if_false, hpc, eq_self_iff_true, if_true]
    rw [hdup.1]
    have ih' := ih c (some cnext) (savePage now o l p.posts db c).1 (calls + 1) hlt
      (fun it2 h2 => by rw [hdup.2 it2.uri]; exact hseen it2 h2)
    exact ⟨ih'.1, by rw [ih'.2]; omega⟩

/-- A backfill run (`initial_scrape_completed = false`) paginates with
the 500-post budget. -/
theorem collect_keyword_backfill_eq (search : String → Nat → Option String → Page)
    (now : Nat) (o : NLPOracle) (l : Listener) (fuel : Nat) (db : DB)
    (hflag : l.initialScrapeCompleted = false) :
    collect_keyword search now o l fuel db =
      ⟨(collectLoop search now o l (keywordSearchTerm l) true 500 fuel 0 none db 0).1,
        (collectLoop search now o l (keywordSearchTerm l) true 500 fuel 0 none db 0).2.1,
        (if 0 < (collectLoop search now o l (keywordSearchTerm l) true 500 fuel 0 none db 0).1
          then {l with initialScrapeCompleted := true} else l),
        (collectLoop search now o l (keywordSearchTerm l) true 500 fuel 0 none db 0).2.2⟩ := by
  simp [collect_keyword, hflag, INITIAL_SCRAPE_MAX_POSTS]

/-- An incremental run uses a single bounded fetch and leaves the
listener untouched. -/
theorem collect_keyword_incremental_eq (search : String → Nat → Option String → Page)
    (now : Nat) (o : NLPOracle) (l : Listener) (fuel : Nat) (db : DB)
    (hflag : l.initialScrapeCompleted = true) :
    collect_keyword search now o l fuel db =
      ⟨(collectLoop search now o l (keywordSearchTerm l) false 100 fuel 0 none db 0).1,
        (collectLoop search now o l (keywordSearchTerm l) false 100 fuel 0 none db 0).2.1,
        l,
        (collectLoop search now o l (keywordSearchTerm l) false 100 fuel 0 none db 0).2.2⟩ := by
  simp [collect_keyword, hflag, REGULAR_SCRAPE_LIMIT]

/-- C5: a backfill run (`backfill_completed`/`initial_scrape_completed`
false at run start) collects at most the 500-post budget and inserts at
most 500 new rows, for any platform behaviour honouring the requested
page limits and however many pages/cursors the platform keeps
returning. -/
theorem backfill_run_bounded (search : String → Nat → Option String → Page)
    (now : Nat) (o : NLPOracle) (l : Listener) (fuel : Nat) (db : DB)
    (hsearch : ∀ q n cur, (search q n cur).posts.length ≤ n)
    (hflag : l.initialScrapeCompleted = false) :
    (collect_keyword search now o l fuel db).count ≤ 500 ∧
    (collect_keyword search now o l fuel db).db.posts.length
      ≤ db.posts.length + 500 := by
  rw [collect_keyword_backfill_eq search now o l fuel db hflag]
  have hbud := collectLoop_budget search now o l (keywordSearchTerm l) true 500
    hsearch fuel 0 none db 0 (by omega)
  have hins := collectLoop_inserts search now o l (keywordSearchTerm l) true 500
    fuel 0 none db 0
  refine ⟨?_, ?_⟩ <;> dsimp only
  · exact hbud
  · omega

/-- Witness for `backfill_run_bounded` at a concrete platform. -/
theorem backfill_run_bounded_witness :
    (∀ q n cur, (searchOne q n cur).posts.length ≤ n) ∧
    listenerK.initialScrapeCompleted = false ∧
    (collect_keyword searchOne 0 oracle0 listenerK 3 emptyDB).count ≤ 500 ∧
    (collect_keyword searchOne 0 oracle0 listenerK 3 emptyDB).db.posts.length
      ≤ emptyDB.posts.length + 500 := by
  have hs : ∀ q n cur, (searchOne q n cur).posts.length ≤ n := by
    intro q n cur
    simpa [searchOne] using List.length_take_le n [itemA]
  have h := backfill_run_bounded searchOne 0 oracle0 listenerK 3 emptyDB hs rfl
  exact ⟨hs, rfl, h.1, h.2⟩

/-- C10: the count a keyword run returns equals the number of
newly-inserted rows (already-seen items never increase it), and a
backfill run facing an endless stream of already-seen pages with
cursors keeps requesting further pages — one search call per permitted
iteration — while the count stays zero. -/
theorem collect_counts_only_new_inserts :
    (∀ (search : String → Nat → Option String → Page) now o (l : Listener) fuel
        (db : DB),
      (collect_keyword search now o l fuel db).count + db.posts.length
        = (collect_keyword search now o l fuel db).db.posts.length) ∧
    (∀ (p : Page) (cnext : String) now o (l : Listener) fuel (db : DB),
      p.cursor = some cnext → p.posts.isEmpty = false →
      (∀ it ∈ p.posts, seen it.uri db = true) →
      l.initialScrapeCompleted = false →
      (collect_keyword (fun _ _ _ => p) now o l fuel db).count = 0 ∧
      (collect_keyword (fun _ _ _ => p) now o l fuel db).calls = fuel) := by
  constructor
  · intro search now o l fuel db
    cases hflag : l.initialScrapeCompleted
    · rw [collect_keyword_backfill_eq search now o l fuel db hflag]
      dsimp only
      have := collectLoop_inserts search now o l (keywordSearchTerm l) true 500
        fuel 0 none db 0
      omega
    · rw [collect_keyword_incremental_eq search now o l fuel db hflag]
      dsimp only
      have := collectLoop_inserts search now o l (keywordSearchTerm l) false 100
        fuel 0 none db 0
      omega
  · intro p cnext now o l fuel db hpc hne hseen hflag
    rw [collect_keyword_backfill_eq _ now o l fuel db hflag]
    dsimp only
    have h := collectLoop_dup p cnext hpc hne now o l (keywordSearchTerm l) 500
      fuel 0 none db 0 (by omega) hseen
    exact ⟨h.1, by omega⟩

/-- Witness for `collect_counts_only_new_inserts` at concrete inputs. -/
theorem collect_counts_only_new_inserts_witness :
    ((collect_keyword searchOne 0 oracle0 listenerK 3 emptyDB).count
        + emptyDB.posts.length
      = (collect_keyword searchOne 0 oracle0 listenerK 3 emptyDB).db.posts.length) ∧
    pageDup.cursor = some "cur" ∧
    pageDup.posts.isEmpty = false ∧
    (∀ it ∈ pageDup.posts, seen it.uri dbSeenA = true) ∧
    listenerK.initialScrapeCompleted = false ∧
    ((collect_keyword (fun _ _ _ => pageDup) 0 oracle0 listenerK 4 dbSeenA).count = 0 ∧
      (collect_keyword (fun _ _ _ => pageDup) 0 oracle0 listenerK 4 dbSeenA).calls = 4) := by
  refine ⟨collect_counts_only_new_inserts.1 searchOne 0 oracle0 listenerK 3 emptyDB,
    rfl, rfl, ?_, rfl,
    collect_counts_only_new_inserts.2 pageDup "cur" 0 oracle0 listenerK 4 dbSeenA
      rfl rfl ?_ rfl⟩ <;> decide

theorem collect_keyword_flag_true (search : String → Nat → Option String → Page)
    (now : Nat) (o : NLPOracle) (l : Listener) (fuel : Nat) (db : DB)
    (h : l.initialScrapeCompleted = true) :
    (collect_keyword search now o l fuel db).listener = l := by
  rw [collect_keyword_incremental_eq search now o l fuel db h]

theorem flipCount_of_true (runs : List RunInput) :
    ∀ (l : Listener) (db : DB), l.initialScrapeCompleted = true →
      flipCount runs l db = 0 := by
  induction runs with
  | nil => intro l db _; rfl
  | cons r rest ih =>
    intro l db h
    have hres := collect_keyword_flag_true r.search r.now r.oracle l r.fuel db h
    simp only [flipCount, h, hres, Bool.not_true, Bool.false_and,
      Bool.false_eq_true, if_false, Nat.zero_add]
    exact ih l _ h

theorem flipCount_le_one :
    ∀ (runs : List RunInput) (l : Listener) (db : DB), flipCount runs l db ≤ 1 := by
  intro runs
  induction runs with
  | nil => intro l db; simp [flipCount]
  | cons r rest ih =>
    intro l db
    cases hflag : l.initialScrapeCompleted
    · rw [flipCount]
      cases hres : (collect_keyword r.search r.now r.oracle l r.fuel db).listener.initialScrapeCompleted
      · simp only [hflag, hres, Bool.not_false, Bool.true_and, Bool.false_eq_true,
          if_false, Nat.zero_add]
        exact ih _ _
      · simp only [hflag, hres, Bool.not_false, Bool.true_and, if_true]
        rw [flipCount_of_true rest _ _ hres]
    · rw [flipCount_of_true (r :: rest) l db hflag]
      omega

/-- C6: the backfill flag is one-shot.  (i) After any keyword run the
flag equals its old value or-ed with "at least one post collected";
(ii) a run that flips it false→true inserted at least one new post;
(iii) over any sequence of runs the flag flips false→true at most once;
(iv) on a failed run the Orchestrator commits the listener unchanged
(the flag flip is rolled back with the rest of the unit of work). -/
theorem backfill_flag_one_shot :
    (∀ (search : String → Nat → Option String → Page) now o (l : Listener) fuel
        (db : DB),
      (collect_keyword search now o l fuel db).listener.initialScrapeCompleted
        = (l.initialScrapeCompleted
            || decide (0 < (collect_keyword search now o l fuel db).count))) ∧
    (∀ (search : String → Nat → Option String → Page) now o (l : Listener) fuel
        (db : DB),
      l.initialScrapeCompleted = false →
      (collect_keyword search now o l fuel db).listener.initialScrapeCompleted = true →
      db.posts.length < (collect_keyword search now o l fuel db).db.posts.length) ∧
    (∀ (runs : List RunInput) (l : Listener) (db : DB), flipCount runs l db ≤ 1) ∧
    (∀ (cc : Listener → DB → Except String (DB × Nat × Listener)) (now : Nat)
        (acc : OrchResult) (l : Listener) (e : String),
      cc l acc.committed = Except.error e →
      scheduledStep cc now acc l
        = ⟨acc.committed, acc.listeners ++ [l], acc.totalPosts, acc.errors ++ [e]⟩) := by
  refine ⟨?_, ?_, flipCount_le_one, ?_⟩
  · intro search now o l fuel db
    cases hflag : l.initialScrapeCompleted
    · rw [collect_keyword_backfill_eq search now o l fuel db hflag]
      dsimp only
      by_cases h0 : 0 < (collectLoop search now o l (keywordSearchTerm l) true 500
          fuel 0 none db 0).1 <;>
        simp [h0, hflag]
    · rw [collect_keyword_incremental_eq search now o l fuel db hflag]
      dsimp only
      simp [hflag]
  · intro search now o l fuel db hflag hflip
    rw [collect_keyword_backfill_eq search now o l fuel db hflag] at hflip ⊢
    dsimp only at hflip ⊢
    have hins := collectLoop_inserts search now o l (keywordSearchTerm l) true 500
      fuel 0 none db 0
    by_cases h0 : 0 < (collectLoop search now o l (keywordSearchTerm l) true 500
        fuel 0 none db 0).1
    · omega
    · rw [if_neg h0] at hflip
      rw [hflag] at hflip
      exact absurd hflip (by simp)
  · intro cc now acc l e h
    unfold scheduledStep
    rw [h]

/-- Witness for `backfill_flag_one_shot` at concrete inputs. -/
theorem backfill_flag_one_shot_witness :
    ((collect_keyword searchOne 0 oracle0 listenerK 1 emptyDB).listener.initialScrapeCompleted
      = (listenerK.initialScrapeCompleted
          || decide (0 < (collect_keyword searchOne 0 oracle0 listenerK 1 emptyDB).count))) ∧
    listenerK.initialScrapeCompleted = false ∧
    (collect_keyword searchOne 0 oracle0 listenerK 1 emptyDB).listener.initialScrapeCompleted
      = true ∧
    emptyDB.posts.length
      < (collect_keyword searchOne 0 oracle0 listenerK 1 emptyDB).db.posts.length ∧
    flipCount [] listenerK emptyDB ≤ 1 ∧
    cEx listenerF (⟨emptyDB, [], 0, []⟩ : OrchResult).committed = Except.error "boom" ∧
    scheduledStep cEx 0 ⟨emptyDB, [], 0, []⟩ listenerF
      = ⟨emptyDB, [] ++ [listenerF], 0, [] ++ ["boom"]⟩ := by
  refine ⟨backfill_flag_one_shot.1 searchOne 0 oracle0 listenerK 1 emptyDB,
    rfl, ?hflip, ?_, backfill_flag_one_shot.2.2.1 [] listenerK emptyDB, rfl,
    backfill_flag_one_shot.2.2.2 cEx 0 ⟨emptyDB, [], 0, []⟩ listenerF "boom" rfl⟩
  case hflip => decide
  · exact backfill_flag_one_shot.2.1 searchOne 0 oracle0 listenerK 1 emptyDB rfl
      (by decide)

/-- Witness for `process_post_failsafe` at concrete inputs: a post with
no content, and a post whose sentiment analysis raises. -/
theorem process_post_failsafe_witness :
    rowX.content.getD "" = "" ∧
    process_post 9 oracle0 rowX emptyDB
      = ({rowX with nlpProcessedAt := some 9}, emptyDB, true) ∧
    postHi.content = some "hi" ∧ "hi" ≠ "" ∧
    oracleFailA.analyzeErr "hi" = some "LeIA down" ∧
    process_post 9 oracleFailA postHi emptyDB
      = ({postHi with nlpError := some "NLP processing failed: LeIA down",
                      nlpProcessedAt := some 9}, emptyDB, false) :=
  ⟨by decide, (process_post_failsafe 9 oracle0 rowX emptyDB).2.1 (by decide),
    rfl, by decide, rfl,
    (process_post_failsafe 9 oracleFailA postHi emptyDB).2.2.1 "hi" "LeIA down"
      rfl (by decide) rfl⟩

/-! ### Orchestrator (C1) -/

/-- The committed database and total depend only on the committed
database and total of the accumulator, not on its listener/error logs. -/
theorem scheduled_foldl_sim (cc : Listener → DB → Except String (DB × Nat × Listener))
    (now : Nat) :
    ∀ (ls : List Listener) (a b : OrchResult),
      a.committed = b.committed → a.totalPosts = b.totalPosts →
      (ls.foldl (scheduledStep cc now) a).committed
        = (ls.foldl (scheduledStep cc now) b).committed ∧
      (ls.foldl (scheduledStep cc now) a).totalPosts
        = (ls.foldl (scheduledStep cc now) b).totalPosts := by
  intro ls
  induction ls with
  | nil => intro a b h1 h2; exact ⟨h1, h2⟩
  | cons l ls ih =>
    intro a b h1 h2
    rw [List.foldl_cons, List.foldl_cons]
    apply ih
    · unfold scheduledStep
      rw [h1]
      cases hc : cc l b.committed <;> simp [h1]
    · unfold scheduledStep
      rw [h1]
      cases hc : cc l b.committed <;> simp [h2]

theorem scheduled_errors_mono (cc : Listener → DB → Except String (DB × Nat × Listener))
    (now : Nat) :
    ∀ (ls : List Listener) (a : OrchResult) (s : String),
      s ∈ a.errors → s ∈ (ls.foldl (scheduledStep cc now) a).errors := by
  intro ls
  induction ls with
  | nil => intro a s hs; exact hs
  | cons l ls ih =>
    intro a s hs
    rw [List.foldl_cons]
    apply ih
    unfold scheduledStep
    cases hc : cc l a.committed <;> simp [hs]

theorem scheduled_listeners_len (cc : Listener → DB → Except String (DB × Nat × Listener))
    (now : Nat) :
    ∀ (ls : List Listener) (a : OrchResult),
      ((ls.foldl (scheduledStep cc now) a).listeners).length
        = a.listeners.length + ls.length := by
  intro ls
  induction ls with
  | nil => intro a; simp
  | cons l ls ih =>
    intro a
    rw [List.foldl_cons, ih]
    unfold scheduledStep
    cases hc : cc l a.committed <;> simp <;> omega

/-- C1 (amended, scheduled path): in `scheduled_collect` an
always-failing listener changes neither the committed database nor the
total count — collection proceeds for every other listener exactly as
if the failing one were absent — its failure is logged, and it is still
accounted for in the per-listener outcome list.  (The manual
`collect_bluesky` path does **not** behave this way; see the
counterexample.) -/
theorem scheduled_failure_isolated
    (cc : Listener → DB → Except String (DB × Nat × Listener)) (now : Nat)
    (l : Listener) (e : String) (pre post : List Listener) (db : DB)
    (hfail : ∀ d, cc l d = Except.error e)
    (hsel : (l.isActive && (l.platform == "bluesky" || l.platform == "all")) = true) :
    (scheduled_collect cc now (pre ++ l :: post) db).committed
      = (scheduled_collect cc now (pre ++ post) db).committed ∧
    (scheduled_collect cc now (pre ++ l :: post) db).totalPosts
      = (scheduled_collect cc now (pre ++ post) db).totalPosts ∧
    e ∈ (scheduled_collect cc now (pre ++ l :: post) db).errors ∧
    (scheduled_collect cc now (pre ++ l :: post) db).listeners.length
      = (selectListeners (pre ++ l :: post)).length := by
  unfold scheduled_collect
  have hsplit : selectListeners (pre ++ l :: post)
      = selectListeners pre ++ l :: selectListeners post := by
    unfold selectListeners
    simp [List.filter_append, List.filter_cons, hsel]
  have hsplit2 : selectListeners (pre ++ post)
      = selectListeners pre ++ selectListeners post := by
    unfold selectListeners
    simp [List.filter_append]
  rw [hsplit, hsplit2]
  rw [List.foldl_append, List.foldl_append, List.foldl_cons]
  have hstep : scheduledStep cc now
      ((selectListeners pre).foldl (scheduledStep cc now) ⟨db, [], 0, []⟩) l
      = ⟨((selectListeners pre).foldl (scheduledStep cc now) ⟨db, [], 0, []⟩).committed,
          ((selectListeners pre).foldl (scheduledStep cc now) ⟨db, [], 0, []⟩).listeners ++ [l],
          ((selectListeners pre).foldl (scheduledStep cc now) ⟨db, [], 0, []⟩).totalPosts,
          ((selectListeners pre).foldl (scheduledStep cc now) ⟨db, [], 0, []⟩).errors ++ [e]⟩ := by
    unfold scheduledStep
    rw [hfail]
  rw [hstep]
  have hsim := scheduled_foldl_sim cc now (selectListeners post)
    ⟨((selectListeners pre).foldl (scheduledStep cc now) ⟨db, [], 0, []⟩).committed,
      ((selectListeners pre).foldl (scheduledStep cc now) ⟨db, [], 0, []⟩).listeners ++ [l],
      ((selectListeners pre).foldl (scheduledStep cc now) ⟨db, [], 0, []⟩).totalPosts,
      ((selectListeners pre).foldl (scheduledStep cc now) ⟨db, [], 0, []⟩).errors ++ [e]⟩
    ((selectListeners pre).foldl (scheduledStep cc now) ⟨db, [], 0, []⟩) rfl rfl
  refine ⟨hsim.1, hsim.2, ?_, ?_⟩
  · apply scheduled_errors_mono
    simp
  · rw [scheduled_listeners_len]
    have hpre := scheduled_listeners_len cc now (selectListeners pre)
      (⟨db, [], 0, []⟩ : OrchResult)
    simp at hpre ⊢
    omega

/-- Witness for `scheduled_failure_isolated` at concrete inputs. -/
theorem scheduled_failure_isolated_witness :
    (∀ d, cEx listenerF d = Except.error "boom") ∧
    (listenerF.isActive && (listenerF.platform == "bluesky"
      || listenerF.platform == "all")) = true ∧
    ((scheduled_collect cEx 0 ([] ++ listenerF :: [listenerS]) emptyDB).committed
        = (scheduled_collect cEx 0 ([] ++ [listenerS]) emptyDB).committed ∧
      (scheduled_collect cEx 0 ([] ++ listenerF :: [listenerS]) emptyDB).totalPosts
        = (scheduled_collect cEx 0 ([] ++ [listenerS]) emptyDB).totalPosts ∧
      "boom" ∈ (scheduled_collect cEx 0 ([] ++ listenerF :: [listenerS]) emptyDB).errors ∧
      (scheduled_collect cEx 0 ([] ++ listenerF :: [listenerS]) emptyDB).listeners.length
        = (selectListeners ([] ++ listenerF :: [listenerS])).length) := by
  have hfail : ∀ d, cEx listenerF d = Except.error "boom" := fun d => rfl
  exact ⟨hfail, rfl,
    scheduled_failure_isolated cEx 0 listenerF "boom" [] [listenerS] emptyDB
      hfail rfl⟩

/-- C1 counterexample: the claim extends failure isolation and
per-listener commits to the manual trigger path.  With a collector that
fails for listener 1 and succeeds (one post) for listener 2, the
scheduled path still commits listener 2's post and logs the failure,
but the manual `collect_bluesky` path aborts the whole request with the
error — the second listener is never collected and nothing is
committed. -/
theorem manual_path_aborts_on_failure :
    collect_bluesky true cEx 0 none [listenerF, listenerS] emptyDB
      = Except.error "boom" ∧
    (scheduled_collect cEx 0 [listenerF, listenerS] emptyDB).totalPosts = 1 ∧
    (scheduled_collect cEx 0 [listenerF, listenerS] emptyDB).committed.posts.length = 1 ∧
    (scheduled_collect cEx 0 [listenerF, listenerS] emptyDB).errors = ["boom"] := by
  refine ⟨rfl, rfl, rfl, rfl⟩

/-! ### Entity Store (C8) -/

theorem recordOccurrence_entities (pid eid : Nat) (c : ℚ) (sp ep : Nat) (db : DB) :
    (recordOccurrence pid eid c sp ep db).entities = db.entities := by
  unfold recordOccurrence
  split <;> rfl

/-- C8: entity storage is deduplicated and occurrence recording is
idempotent.  Over the four-step sequence "extract the same
`(type, normalized text)` from two different posts" — get-or-create for
post 1, record its occurrence, get-or-create for post 2, record its
occurrence — the second get-or-create returns the same entity id and
creates no entity row (exactly one entity row carries the key), the two
occurrence records both insert (two occurrence rows), and re-recording
the identical `(post, entity, start offset)` span is a no-op, not an
error. -/
theorem entity_dedup_occurrence_idempotent (ty txt d1 d2 : String) (db : DB)
    (p1 p2 : Nat) (c1 c2 : ℚ) (sp ep : Nat)
    (e1 e2 : Nat) (db1 db2 db3 db4 : DB)
    (hnone : db.entities.find? (entityKeyIs ty txt) = none)
    (hfreshOcc : ∀ r ∈ db.postEntities, r.entityId ≠ db.nextEntityId)
    (hp : p1 ≠ p2)
    (h1 : getOrCreateEntity ty txt d1 db = (e1, db1))
    (h2 : recordOccurrence p1 e1 c1 sp ep db1 = db2)
    (h3 : getOrCreateEntity ty txt d2 db2 = (e2, db3))
    (h4 : recordOccurrence p2 e2 c2 sp ep db3 = db4) :
    e2 = e1 ∧
    db3.entities = db2.entities ∧
    (db4.entities.filter (entityKeyIs ty txt)).length = 1 ∧
    db4.postEntities.length = db.postEntities.length + 2 ∧
    recordOccurrence p1 e1 c1 sp ep db2 = db2 := by
  have hkey : entityKeyIs ty txt (⟨db.nextEntityId, ty, txt, d1⟩ : EntityRow) = true := by
    simp [entityKeyIs]
  have hfe : db.entities.filter (entityKeyIs ty txt) = [] := by
    rw [List.filter_eq_nil]
    intro a ha
    have := List.find?_eq_none.mp hnone a ha
    simpa using this
  -- step 1: the entity does not exist yet, so it is inserted
  have hg1 : getOrCreateEntity ty txt d1 db
      = (db.nextEntityId,
          { db with entities := db.entities ++ [⟨db.nextEntityId, ty, txt, d1⟩],
                    nextEntityId := db.nextEntityId + 1 }) := by
    unfold getOrCreateEntity
    rw [hnone]
  rw [hg1] at h1
  injection h1 with he1 hdb1
  subst he1
  subst hdb1
  -- step 2: no occurrence row can reference the fresh entity id
  have hany1 : (db.postEntities.any (occurrenceKeyIs p1 db.nextEntityId sp)) = false := by
    rw [List.any_eq_false]
    intro r hr
    simp [occurrenceKeyIs]
    intro _
    exact fun h => absurd h (hfreshOcc r hr)
  unfold recordOccurrence at h2
  dsimp only at h2
  rw [hany1] at h2
  simp only [Bool.false_eq_true, if_false] at h2
  subst h2
  -- step 3: the entity now exists; the insert is discarded and the
  -- existing row's id is read back
  unfold getOrCreateEntity at h3
  dsimp only at h3
  rw [List.find?_append, hnone] at h3
  simp only [Option.none_or, List.find?_cons, hkey] at h3
  injection h3 with he2 hdb3
  subst hdb3
  -- step 4: the second post's occurrence is distinct and inserts
  have hany2 : ((db.postEntities
      ++ [(⟨db.nextPostEntityId, p1, db.nextEntityId, some c1, some sp, some ep⟩ : PostEntityRow)]).any
        (occurrenceKeyIs p2 db.nextEntityId sp)) = false := by
    rw [List.any_append]
    have ha : db.postEntities.any (occurrenceKeyIs p2 db.nextEntityId sp) = false := by
      rw [List.any_eq_false]
      intro r hr
      simp [occurrenceKeyIs]
      intro _
      exact fun h => absurd h (hfreshOcc r hr)
    rw [ha]
    simp [occurrenceKeyIs, hp]
  unfold recordOccurrence at h4
  rw [← he2] at h4
  dsimp only at h4
  rw [hany2] at h4
  simp only [Bool.false_eq_true, if_false] at h4
  subst h4
  refine ⟨he2.symm, rfl, ?_, ?_, ?_⟩
  · dsimp only
    rw [List.filter_append, hfe]
    simp [hkey]
  · dsimp only
    simp
  · have hany3 : ((db.postEntities
        ++ [(⟨db.nextPostEntityId, p1, db.nextEntityId, some c1, some sp, some ep⟩ : PostEntityRow)]).any
          (occurrenceKeyIs p1 db.nextEntityId sp)) = true := by
      rw [List.any_append]
      simp [occurrenceKeyIs]
    unfold recordOccurrence
    dsimp only
    rw [hany3]
    simp


/-- Witness for `entity_dedup_occurrence_idempotent` at concrete
inputs. -/
theorem entity_dedup_occurrence_idempotent_witness :
    emptyDB.entities.find? (entityKeyIs "PERSON" "ana") = none ∧
    (∀ r ∈ emptyDB.postEntities, r.entityId ≠ emptyDB.nextEntityId) ∧
    (10 : Nat) ≠ 11 ∧
    (entStep3.1 = entStep1.1 ∧
      entStep3.2.entities = entStep2.entities ∧
      (entStep4.entities.filter (entityKeyIs "PERSON" "ana")).length = 1 ∧
      entStep4.postEntities.length = emptyDB.postEntities.length + 2 ∧
      recordOccurrence 10 entStep1.1 1 0 3 entStep2 = entStep2) :=
  ⟨rfl, by simp [emptyDB], by decide,
    entity_dedup_occurrence_idempotent "PERSON" "ana" "Ana" "ANA" emptyDB 10 11 1 1 0 3
      entStep1.1 entStep3.1 entStep1.2 entStep2 entStep3.2 entStep4
      rfl (by simp [emptyDB]) (by decide) rfl rfl rfl rfl⟩

end SocialListener
